import Mathlib

/-!
Verification of the face-identification matching engine of the
SmatFace attendance system (`attendance/utils.py`, `attendance/models.py`).

The engine is shallowly embedded: the external neural models (MTCNN
detector, InceptionResnetV1 embedder) are parameters of the embedding,
while every line of control flow of `FaceRecognizer` — frame validation,
threshold matching, index rebuild — is translated faithfully.
Image pixel data is irrelevant to the control flow (only `frame is None`,
`frame.size` and `frame.shape` are inspected), so a frame is modelled by
its shape and size.  Floats are modelled by exact rationals.
-/

namespace SmatFace

/-- A face embedding: the flattened, L2-normalised output vector of the
embedding model (`np.ndarray` flattened to 1-D), modelled as a list of
rationals. -/
abbrev Emb := List ℚ

/-- Model of `np.dot` on two 1-D vectors: sum of elementwise products
(`utils.py` lines 156 and 190). -/
def similarity (a b : Emb) : ℚ :=
  (List.zipWith (fun x y => x * y) a b).sum

/-- Squared L2 norm of an embedding; `sqNorm a = 1` states that `a` is a
unit vector, the invariant established by the L2 normalisation at
`utils.py` line 91. -/
def sqNorm (a : Emb) : ℚ :=
  (a.map (fun x => x * x)).sum

/-- An axis-aligned detection box `(x1, y1, x2, y2)` as returned by the
detector. -/
structure Box where
  x1 : ℚ
  y1 : ℚ
  x2 : ℚ
  y2 : ℚ
deriving DecidableEq

/-- A decoded image, reduced to the fields the engine inspects:
`shape[0]` (height), `shape[1]` (width) and `size` (element count;
`size = 0` is an empty image).  A `None` frame is `Option.none`. -/
structure Frame where
  height : ℕ
  width : ℕ
  size : ℕ
deriving DecidableEq

/-- The dictionary returned by `process_frame`: Python dict keys become
optional fields (a key absent from the returned dict is `none`). -/
structure Verdict where
  is_valid : Bool
  error : Option String
  face_location : Option Box
  face_count : Option ℕ
deriving DecidableEq

/-- The rejection dictionaries of `process_frame`: only `is_valid` and
`error` keys are present. -/
def invalidVerdict (msg : String) : Verdict :=
  ⟨false, some msg, none, none⟩

/-- Model of `detect_faces` (`utils.py` lines 43-60): empty result on a null or
empty frame, otherwise the boxes of the detector filtered by confidence
`prob > 0.95`.  The MTCNN model itself is the parameter `mtcnn`,
returning box/probability pairs. -/
def detect_faces (mtcnn : Frame → List (Box × ℚ)) : Option Frame → List Box
  | none => []
  | some f =>
    if f.size = 0 then []
    else ((mtcnn f).filter (fun bp => (95 : ℚ) / 100 < bp.2)).map Prod.fst

/-- Area of a box, the key of `max(boxes, key=...)` at `utils.py` line 112. -/
def area (b : Box) : ℚ := (b.x2 - b.x1) * (b.y2 - b.y1)

/-- The Python built-in max over boxes with an area key: first box of
maximal area (a later
box replaces the current one only when strictly larger). -/
def maxByArea : Box → List Box → Box
  | b, [] => b
  | b, c :: rest => maxByArea (if area b < area c then c else b) rest

/-- Model of `process_frame` (`utils.py` lines 98-131): the frame validator.
Checks in source order: empty image, zero boxes, more than one box,
largest-box selection, height below 20% of frame height, width below
20% of frame width; otherwise a valid verdict carrying the box and the
box count. -/
def process_frame (mtcnn : Frame → List (Box × ℚ)) (frame : Option Frame) :
    Verdict :=
  match frame with
  | none => invalidVerdict "Empty image received"
  | some f =>
    if f.size = 0 then invalidVerdict "Empty image received"
    else
      match detect_faces mtcnn (some f) with
      | [] =>
        invalidVerdict
          "No faces detected. Please ensure your face is visible and well-lit"
      | b :: rest =>
        if 1 < (b :: rest).length then
          invalidVerdict
            "Multiple faces detected. Please ensure only your face is in the frame"
        else
          let main_box := maxByArea b rest
          if main_box.y2 - main_box.y1 < (f.height : ℚ) * (2 / 10) then
            invalidVerdict "Please move closer to the camera"
          else if main_box.x2 - main_box.x1 < (f.width : ℚ) * (2 / 10) then
            invalidVerdict "Please center your face in the frame"
          else
            ⟨true, none, some main_box, some (b :: rest).length⟩

/-- The recognizer state: the two external models and the in-memory
enrollment index `known_faces` (a Python dict from user id to a record
holding the encoding, modelled as an association list with unique keys). `embedModel` stands for
the crop/pad/resize/ResNet pipeline of `get_face_embedding` on a
non-empty frame (returning `none` on crop failure or internal error). -/
structure FaceRecognizer where
  mtcnn : Frame → List (Box × ℚ)
  embedModel : Frame → Box → Option Emb
  known_faces : List (ℕ × Emb)

/-- Model of `get_face_embedding` (`utils.py` lines 62-96): `None` on a null or
empty frame, otherwise the model pipeline. -/
def get_face_embedding (r : FaceRecognizer) : Option Frame → Box → Option Emb
  | none, _ => none
  | some f, b => if f.size = 0 then none else r.embedModel f b

/-- The shared prologue of `identify_user` and `verify_user_face`
(`utils.py` lines 139-143 and 178-182): an explicitly supplied
`face_location` is used as-is; otherwise the frame is validated by
`process_frame` and the validated box is used, with `none` on rejection. -/
def resolve_location (mtcnn : Frame → List (Box × ℚ)) (frame : Option Frame) :
    Option Box → Option Box
  | some b => some b
  | none =>
    let result := process_frame mtcnn frame
    if result.is_valid then result.face_location else none

/-- The location-then-embedding pipeline shared by `identify_user`
(lines 139-147) and `verify_user_face` (lines 178-186): `none` whenever
either step fails, in which case both callers bail out. -/
def pipeline_embedding (r : FaceRecognizer) (frame : Option Frame)
    (face_location : Option Box) : Option Emb :=
  match resolve_location r.mtcnn frame face_location with
  | none => none
  | some b => get_face_embedding r frame b

/-- One iteration of the best-match loop of `identify_user`
(`utils.py` lines 153-160): replace the running `(best_match,
best_similarity)` exactly when the similarity strictly exceeds the
running best. -/
def bestStep (emb : Emb) (acc : Option ℕ × ℚ) (p : ℕ × Emb) : Option ℕ × ℚ :=
  if acc.2 < similarity emb p.2 then (some p.1, similarity emb p.2) else acc

/-- The best-match loop of `identify_user` (`utils.py` lines 150-160):
fold over the index starting from `(None, -1)`. -/
def bestMatchFold (emb : Emb) (faces : List (ℕ × Emb)) : Option ℕ × ℚ :=
  faces.foldl (bestStep emb) (none, -1)

/-- Model of `identify_user` (`utils.py` lines 133-170).  `threshold` is the
`FACE_RECOGNITION_TOLERANCE` setting (default `0.8`). -/
def identify_user (r : FaceRecognizer) (threshold : ℚ) (frame : Option Frame)
    (face_location : Option Box) : Option ℕ :=
  if r.known_faces.isEmpty then none
  else
    match pipeline_embedding r frame face_location with
    | none => none
    | some emb =>
      let best := bestMatchFold emb r.known_faces
      if threshold < best.2 then best.1 else none

/-- Model of `verify_user_face` (`utils.py` lines 172-197): absent claimed
identity yields `False`; otherwise the same pipeline followed by a strict
threshold comparison against only the stored encoding of the claimed
identity. -/
def verify_user_face (r : FaceRecognizer) (threshold : ℚ) (user_id : ℕ)
    (frame : Option Frame) (face_location : Option Box) : Bool :=
  match List.lookup user_id r.known_faces with
  | none => false
  | some stored =>
    match pipeline_embedding r frame face_location with
    | none => false
    | some emb => decide (threshold < similarity emb stored)

/-- The true maximum similarity of a query embedding over a (nonempty)
enrollment index; `-1` on the empty index (never used there). -/
def maxSimilarity (emb : Emb) : List (ℕ × Emb) → ℚ
  | [] => -1
  | p :: rest =>
    rest.foldl (fun m q => max m (similarity emb q.2)) (similarity emb p.2)

/-- Opaque stored bytes of a pickled face descriptor
(`FaceProfile.face_encoding`). -/
abbrev Blob := ℕ

/-- The fields of `attendance/models.py` `FaceProfile` that
`load_known_faces` and the claims consult: `user_id`, the nullable
binary `face_encoding`, and the `is_active` flag (default true). -/
structure FaceProfile where
  user_id : ℕ
  face_encoding : Option Blob
  is_active : Bool
deriving DecidableEq

/-- Python dict assignment `d[k] = v`: overwrite in place if the key is
present, else append. -/
def dictInsert (k : ℕ) (v : Emb) : List (ℕ × Emb) → List (ℕ × Emb)
  | [] => [(k, v)]
  | p :: rest => if p.1 = k then (k, v) :: rest else p :: dictInsert k v rest

/-- The loop body of `load_known_faces` (`utils.py` lines 32-38):
iterate over all `FaceProfile` rows, skip rows with a null encoding,
unpickle the rest.  `loads` models `pickle.loads`; a decoding result of
`none` models the exception it raises on a corrupt blob, which escapes
the loop (`Option.none` overall). -/
def loadGo (loads : Blob → Option Emb) :
    List FaceProfile → List (ℕ × Emb) → Option (List (ℕ × Emb))
  | [], acc => some acc
  | p :: rest, acc =>
    match p.face_encoding with
    | none => loadGo loads rest acc
    | some blob =>
      match loads blob with
      | none => none
      | some emb => loadGo loads rest (dictInsert p.user_id emb acc)

/-- Model of `load_known_faces` (`utils.py` lines 28-41): the whole loop runs
inside a single `try`; any exception (in particular a `pickle.loads`
failure on one row) is caught at the top level and resets the index to
the empty dict. -/
def load_known_faces (loads : Blob → Option Emb)
    (profiles : List FaceProfile) : List (ℕ × Emb) :=
  (loadGo loads profiles []).getD []

/-! ## Similarity algebra -/

theorem similarity_cons (x y : ℚ) (xs ys : Emb) :
    similarity (x :: xs) (y :: ys) = x * y + similarity xs ys := by
  simp [similarity]

theorem similarity_comm (a b : Emb) : similarity a b = similarity b a := by
  induction a generalizing b with
  | nil => cases b <;> simp [similarity]
  | cons x xs ih =>
    cases b with
    | nil => simp [similarity]
    | cons y ys => rw [similarity_cons, similarity_cons, mul_comm, ih]

theorem similarity_self (a : Emb) : similarity a a = sqNorm a := by
  induction a with
  | nil => simp [similarity, sqNorm]
  | cons x xs ih => rw [similarity_cons]; simp [sqNorm] at ih ⊢; rw [ih]

/-- C10: the similarity function of the matcher (dot product, `np.dot` at
`utils.py` lines 156 and 190) is symmetric, and for a unit-norm
embedding the self-similarity is exactly 1. -/
theorem similarity_symm_and_self (a b : Emb)
    (ha : sqNorm a = 1) (hb : sqNorm b = 1) :
    similarity a b = similarity b a ∧ similarity a a = 1 :=
  ⟨similarity_comm a b, by rw [similarity_self, ha]⟩

/-- Witness for C10 at the concrete unit vectors `(3/5, 4/5)` and `(1, 0)`. -/
theorem similarity_symm_and_self_witness :
    sqNorm [(3 : ℚ)/5, 4/5] = 1 ∧ sqNorm [(1 : ℚ), 0] = 1 ∧
      similarity [(3 : ℚ)/5, 4/5] [(1 : ℚ), 0] =
        similarity [(1 : ℚ), 0] [(3 : ℚ)/5, 4/5] ∧
      similarity [(3 : ℚ)/5, 4/5] [(3 : ℚ)/5, 4/5] = 1 := by
  have h := similarity_symm_and_self [(3 : ℚ)/5, 4/5] [(1 : ℚ), 0]
    (by norm_num [sqNorm]) (by norm_num [sqNorm])
  exact ⟨by norm_num [sqNorm], by norm_num [sqNorm], h.1, h.2⟩

/-! ## Empty index and unknown identity -/

/-- C8: `identify_user` returns `None` whenever the enrollment index is
empty, before looking at the frame at all (`utils.py` lines 136-137) —
in particular also on a null or empty frame. -/
theorem identify_empty_index (r : FaceRecognizer) (threshold : ℚ)
    (frame : Option Frame) (face_location : Option Box)
    (h : r.known_faces = []) :
    identify_user r threshold frame face_location = none := by
  simp [identify_user, h]

/-- Witness for C8: empty index, null frame. -/
theorem identify_empty_index_witness :
    identify_user ⟨fun _ => [], fun _ _ => some [1], []⟩ (8/10) none none
      = none :=
  identify_empty_index _ _ _ _ rfl

/-- C9: `verify_user_face` returns `False` (it is a total function, so
no exception) whenever the claimed identity has no entry in the index
(`utils.py` lines 175-176). -/
theorem verify_unknown_identity (r : FaceRecognizer) (threshold : ℚ)
    (user_id : ℕ) (frame : Option Frame) (face_location : Option Box)
    (h : List.lookup user_id r.known_faces = none) :
    verify_user_face r threshold user_id frame face_location = false := by
  simp [verify_user_face, h]

/-- Witness for C9: identity 2 absent from an index holding only 1. -/
theorem verify_unknown_identity_witness :
    verify_user_face ⟨fun _ => [], fun _ _ => some [1], [(1, [1])]⟩
      (8/10) 2 none none = false :=
  verify_unknown_identity _ _ _ _ _ rfl

/-! ## Verification is 1-to-1 -/

/-- C2: the result of `verify_user_face` depends on the enrollment index
only through the entry of the claimed identity: two indexes that agree on
`List.lookup user_id` (both absent, or both present with the same
embedding) yield the same boolean, whatever the other entries are
(`utils.py` lines 172-197 use `known_faces` only at `user_id`). -/
theorem verify_depends_only_on_claimed_entry
    (mtcnn : Frame → List (Box × ℚ)) (embedModel : Frame → Box → Option Emb)
    (kf1 kf2 : List (ℕ × Emb)) (threshold : ℚ) (user_id : ℕ)
    (frame : Option Frame) (face_location : Option Box)
    (h : List.lookup user_id kf1 = List.lookup user_id kf2) :
    verify_user_face ⟨mtcnn, embedModel, kf1⟩ threshold user_id frame
        face_location =
      verify_user_face ⟨mtcnn, embedModel, kf2⟩ threshold user_id frame
        face_location := by
  simp only [verify_user_face]
  rw [h]
  rfl

/-- Witness for C2: indexes `[(1,[1]),(2,[0,1])]` and `[(3,[1,0]),(1,[1])]`
agree on identity 1 and give equal verification results. -/
theorem verify_depends_only_on_claimed_entry_witness :
    List.lookup 1 [(1, [(1 : ℚ)]), (2, [0, 1])] =
        List.lookup 1 [(3, [(1 : ℚ), 0]), (1, [1])] ∧
      verify_user_face ⟨fun _ => [], fun _ _ => some [1],
          [(1, [(1 : ℚ)]), (2, [0, 1])]⟩ (8/10) 1 none none =
        verify_user_face ⟨fun _ => [], fun _ _ => some [1],
          [(3, [(1 : ℚ), 0]), (1, [1])]⟩ (8/10) 1 none none :=
  ⟨rfl, verify_depends_only_on_claimed_entry _ _ _ _ _ _ _ _ rfl⟩

/-! ## The best-match fold of `identify_user` -/

theorem foldl_bestStep_snd (emb : Emb) (faces : List (ℕ × Emb)) :
    ∀ acc : Option ℕ × ℚ,
      (faces.foldl (bestStep emb) acc).2 =
        faces.foldl (fun m q => max m (similarity emb q.2)) acc.2 := by
  induction faces with
  | nil => intro acc; rfl
  | cons p rest ih =>
    intro acc
    simp only [List.foldl_cons]
    rw [ih]
    congr 1
    by_cases h : acc.2 < similarity emb p.2
    · simp [bestStep, h, max_eq_right (le_of_lt h)]
    · simp [bestStep, h, max_eq_left (not_lt.mp h)]

theorem foldl_bestStep_fst (emb : Emb) (faces : List (ℕ × Emb)) :
    ∀ acc : Option ℕ × ℚ,
      faces.foldl (bestStep emb) acc = acc ∨
        ∃ p ∈ faces, (faces.foldl (bestStep emb) acc).1 = some p.1 ∧
          (faces.foldl (bestStep emb) acc).2 = similarity emb p.2 := by
  induction faces with
  | nil => intro acc; exact Or.inl rfl
  | cons p rest ih =>
    intro acc
    simp only [List.foldl_cons]
    by_cases h : acc.2 < similarity emb p.2
    · have hstep : bestStep emb acc p = (some p.1, similarity emb p.2) := by
        simp [bestStep, h]
      rw [hstep]
      rcases ih (some p.1, similarity emb p.2) with h1 | ⟨q, hq, h2, h3⟩
      · exact Or.inr ⟨p, List.mem_cons_self p rest, by rw [h1], by rw [h1]⟩
      · exact Or.inr ⟨q, List.mem_cons_of_mem p hq, h2, h3⟩
    · have hstep : bestStep emb acc p = acc := by simp [bestStep, h]
      rw [hstep]
      rcases ih acc with h1 | ⟨q, hq, h2, h3⟩
      · exact Or.inl h1
      · exact Or.inr ⟨q, List.mem_cons_of_mem p hq, h2, h3⟩

/-- The outcome of the best-match loop: either it never updated (all
similarities at most the initial `-1`), or best match and best
similarity were achieved by some index entry. -/
theorem bestMatchFold_cases (emb : Emb) (faces : List (ℕ × Emb)) :
    bestMatchFold emb faces = (none, -1) ∨
      ∃ p ∈ faces, (bestMatchFold emb faces).1 = some p.1 ∧
        (bestMatchFold emb faces).2 = similarity emb p.2 :=
  foldl_bestStep_fst emb faces (none, -1)

theorem le_foldl_max (emb : Emb) (faces : List (ℕ × Emb)) :
    ∀ m : ℚ, m ≤ faces.foldl (fun m q => max m (similarity emb q.2)) m := by
  induction faces with
  | nil => intro m; exact le_refl m
  | cons p rest ih =>
    intro m
    simp only [List.foldl_cons]
    exact le_trans (le_max_left _ _) (ih _)

theorem mem_le_foldl_max (emb : Emb) (faces : List (ℕ × Emb)) :
    ∀ m : ℚ, ∀ q ∈ faces,
      similarity emb q.2 ≤
        faces.foldl (fun m q => max m (similarity emb q.2)) m := by
  induction faces with
  | nil => intro m q hq; cases hq
  | cons p rest ih =>
    intro m q hq
    simp only [List.foldl_cons]
    rcases List.mem_cons.mp hq with h | h
    · subst h
      exact le_trans (le_max_right _ _) (le_foldl_max emb rest _)
    · exact ih _ q h

/-- Every similarity over the index is at most the maximum. -/
theorem mem_le_maxSimilarity (emb : Emb) (faces : List (ℕ × Emb)) :
    ∀ q ∈ faces, similarity emb q.2 ≤ maxSimilarity emb faces := by
  intro q hq
  cases faces with
  | nil => cases hq
  | cons p rest =>
    simp only [maxSimilarity]
    rcases List.mem_cons.mp hq with h | h
    · subst h
      exact le_foldl_max emb rest _
    · exact mem_le_foldl_max emb rest _ q h

/-! ## C1: strict threshold semantics -/

/-- C1: for every query pipeline result, enrollment index and threshold
`t` (`FACE_RECOGNITION_TOLERANCE`, default 0.8): `identify_user` returns
an identity only if the maximum similarity over the index strictly
exceeds `t` and returns `None` when the maximum equals `t` exactly
(`utils.py` line 164, `best_similarity > threshold`); `verify_user_face`
returns `True` only if the similarity to the stored embedding of the
claimed identity strictly exceeds `t` and `False` at exact equality
(line 194, `similarity > threshold`). -/
theorem strict_threshold_semantics (r : FaceRecognizer) (threshold : ℚ)
    (frame : Option Frame) (face_location : Option Box) (emb : Emb)
    (hemb : pipeline_embedding r frame face_location = some emb) :
    (∀ uid, identify_user r threshold frame face_location = some uid →
        threshold < maxSimilarity emb r.known_faces) ∧
    (maxSimilarity emb r.known_faces = threshold →
        identify_user r threshold frame face_location = none) ∧
    (∀ uid stored, List.lookup uid r.known_faces = some stored →
        (verify_user_face r threshold uid frame face_location = true →
            threshold < similarity emb stored) ∧
        (similarity emb stored = threshold →
            verify_user_face r threshold uid frame face_location = false)) := by
  refine ⟨?_, ?_, ?_⟩
  · intro uid hid
    by_cases hkf : r.known_faces.isEmpty
    · simp [identify_user, hkf] at hid
    · simp only [identify_user, hkf, Bool.false_eq_true, if_false, hemb] at hid
      by_cases hlt : threshold < (bestMatchFold emb r.known_faces).2
      · rcases bestMatchFold_cases emb r.known_faces with h1 | ⟨p, hp, h2, h3⟩
        · rw [if_pos hlt, h1] at hid
          cases hid
        · have := mem_le_maxSimilarity emb r.known_faces p hp
          rw [h3] at hlt
          exact lt_of_lt_of_le hlt this
      · rw [if_neg hlt] at hid
        cases hid
  · intro hmax
    by_cases hkf : r.known_faces.isEmpty
    · simp [identify_user, hkf]
    · simp only [identify_user, hkf, Bool.false_eq_true, if_false, hemb]
      by_cases hlt : threshold < (bestMatchFold emb r.known_faces).2
      · rw [if_pos hlt]
        rcases bestMatchFold_cases emb r.known_faces with h1 | ⟨p, hp, h2, h3⟩
        · rw [h1]
        · exfalso
          have hle : similarity emb p.2 ≤ threshold :=
            hmax ▸ mem_le_maxSimilarity emb r.known_faces p hp
          rw [h3] at hlt
          exact absurd hlt (not_lt.mpr hle)
      · rw [if_neg hlt]
  · intro uid stored hlook
    constructor
    · intro hv
      simp only [verify_user_face, hlook, hemb] at hv
      exact of_decide_eq_true hv
    · intro he
      simp only [verify_user_face, hlook, hemb, he]
      simp

def w1Emb : Emb := [4/5, 3/5]

def w1Stored : Emb := [1, 0]

def w1Rec : FaceRecognizer :=
  ⟨fun _ => [], fun _ _ => some w1Emb, [(7, w1Stored)]⟩

def w1Frame : Option Frame := some ⟨100, 100, 30000⟩

def w1Box : Box := ⟨10, 10, 90, 90⟩

/-- Witness for C1: a query whose best (and only) similarity equals the
threshold 4/5 exactly, so identification returns `None` and
verification returns `False`. -/
theorem strict_threshold_semantics_witness :
    pipeline_embedding w1Rec w1Frame (some w1Box) = some w1Emb ∧
    maxSimilarity w1Emb w1Rec.known_faces = 4/5 ∧
    identify_user w1Rec (4/5) w1Frame (some w1Box) = none ∧
    verify_user_face w1Rec (4/5) 7 w1Frame (some w1Box) = false := by
  have hemb : pipeline_embedding w1Rec w1Frame (some w1Box) = some w1Emb := by
    rfl
  have hmax : maxSimilarity w1Emb w1Rec.known_faces = 4/5 := by
    simp [maxSimilarity, w1Rec, similarity, w1Emb, w1Stored]
  obtain ⟨hA, hB, hC⟩ :=
    strict_threshold_semantics w1Rec (4/5) w1Frame (some w1Box) w1Emb hemb
  refine ⟨hemb, hmax, hB hmax, ?_⟩
  refine (hC 7 w1Stored rfl).2 ?_
  simp [similarity, w1Emb, w1Stored]

/-! ## C3: validator check order -/

/-- C3: the validator `process_frame` applies its checks in the fixed
source order,
first failing check wins (`utils.py` lines 101-128): null/empty image;
zero boxes; more than one box (whatever the box sizes); height below
20% of frame height (checked before width); width below 20% of frame
width; otherwise a valid verdict carrying the single chosen box. -/
theorem validator_check_order (mtcnn : Frame → List (Box × ℚ)) (f : Frame) :
    (process_frame mtcnn none = invalidVerdict "Empty image received") ∧
    (f.size = 0 →
      process_frame mtcnn (some f) = invalidVerdict "Empty image received") ∧
    (f.size ≠ 0 → detect_faces mtcnn (some f) = [] →
      process_frame mtcnn (some f) = invalidVerdict
        "No faces detected. Please ensure your face is visible and well-lit") ∧
    (f.size ≠ 0 → 1 < (detect_faces mtcnn (some f)).length →
      process_frame mtcnn (some f) = invalidVerdict
        "Multiple faces detected. Please ensure only your face is in the frame") ∧
    (∀ b, f.size ≠ 0 → detect_faces mtcnn (some f) = [b] →
      b.y2 - b.y1 < (f.height : ℚ) * (2 / 10) →
      process_frame mtcnn (some f) =
        invalidVerdict "Please move closer to the camera") ∧
    (∀ b, f.size ≠ 0 → detect_faces mtcnn (some f) = [b] →
      ¬(b.y2 - b.y1 < (f.height : ℚ) * (2 / 10)) →
      b.x2 - b.x1 < (f.width : ℚ) * (2 / 10) →
      process_frame mtcnn (some f) =
        invalidVerdict "Please center your face in the frame") ∧
    (∀ b, f.size ≠ 0 → detect_faces mtcnn (some f) = [b] →
      ¬(b.y2 - b.y1 < (f.height : ℚ) * (2 / 10)) →
      ¬(b.x2 - b.x1 < (f.width : ℚ) * (2 / 10)) →
      process_frame mtcnn (some f) = ⟨true, none, some b, some 1⟩) := by
  refine ⟨rfl, ?_, ?_, ?_, ?_, ?_, ?_⟩
  · intro h
    simp [process_frame, h]
  · intro h hdet
    simp [process_frame, h, hdet]
  · intro h hlen
    rcases hdet : detect_faces mtcnn (some f) with _ | ⟨b, rest⟩
    · rw [hdet] at hlen
      simp at hlen
    · rcases rest with _ | ⟨q, t⟩
      · rw [hdet] at hlen
        simp at hlen
      · have h2 : 1 < (b :: q :: t).length := by
          simp only [List.length_cons]
          omega
        simp [process_frame, h, hdet, h2]
  · intro b h hdet hh
    simp [process_frame, h, hdet, maxByArea, hh]
  · intro b h hdet hh hw
    simp [process_frame, h, hdet, maxByArea, hh, hw]
  · intro b h hdet hh hw
    simp [process_frame, h, hdet, maxByArea, hh, hw]

def w3f : Frame := ⟨100, 100, 30000⟩

def w3fEmpty : Frame := ⟨100, 100, 0⟩

def w3big : Box := ⟨10, 10, 90, 90⟩

def w3small : Box := ⟨0, 0, 10, 10⟩

def w3narrow : Box := ⟨0, 0, 10, 90⟩

def w3m0 : Frame → List (Box × ℚ) := fun _ => []

def w3m2 : Frame → List (Box × ℚ) :=
  fun _ => [(w3big, 97 / 100), (w3small, 96 / 100)]

def w3m1s : Frame → List (Box × ℚ) := fun _ => [(w3small, 97 / 100)]

def w3m1n : Frame → List (Box × ℚ) := fun _ => [(w3narrow, 97 / 100)]

def w3m1g : Frame → List (Box × ℚ) := fun _ => [(w3big, 97 / 100)]

/-- Witness for C3: one concrete frame per branch of the validator (the
move-closer case uses a box that is too small in both axes, showing the
height check fires first). -/
theorem validator_check_order_witness :
    process_frame w3m0 none = invalidVerdict "Empty image received" ∧
    process_frame w3m0 (some w3fEmpty) =
      invalidVerdict "Empty image received" ∧
    process_frame w3m0 (some w3f) = invalidVerdict
      "No faces detected. Please ensure your face is visible and well-lit" ∧
    process_frame w3m2 (some w3f) = invalidVerdict
      "Multiple faces detected. Please ensure only your face is in the frame" ∧
    process_frame w3m1s (some w3f) =
      invalidVerdict "Please move closer to the camera" ∧
    process_frame w3m1n (some w3f) =
      invalidVerdict "Please center your face in the frame" ∧
    process_frame w3m1g (some w3f) = ⟨true, none, some w3big, some 1⟩ :=
  ⟨(validator_check_order w3m0 w3f).1,
   (validator_check_order w3m0 w3fEmpty).2.1 rfl,
   (validator_check_order w3m0 w3f).2.2.1 (by norm_num [w3f])
     (by norm_num [detect_faces, w3m0, w3f]),
   (validator_check_order w3m2 w3f).2.2.2.1 (by norm_num [w3f])
     (by norm_num [detect_faces, w3m2, w3f, List.filter]),
   (validator_check_order w3m1s w3f).2.2.2.2.1 w3small (by norm_num [w3f])
     (by norm_num [detect_faces, w3m1s, w3f, List.filter])
     (by norm_num [w3small, w3f]),
   (validator_check_order w3m1n w3f).2.2.2.2.2.1 w3narrow (by norm_num [w3f])
     (by norm_num [detect_faces, w3m1n, w3f, List.filter])
     (by norm_num [w3narrow, w3f]) (by norm_num [w3narrow, w3f]),
   (validator_check_order w3m1g w3f).2.2.2.2.2.2 w3big (by norm_num [w3f])
     (by norm_num [detect_faces, w3m1g, w3f, List.filter])
     (by norm_num [w3big, w3f]) (by norm_num [w3big, w3f])⟩

/-! ## C7: face_count is only present on acceptance -/

/-- Counterexample to C7: for a frame with two detected faces (confidence
0.97 and 0.96) the rejection dictionary at `utils.py` line 109 carries
only `is_valid` and `error` — there is no `face_count` key at all, in
particular not `face_count = 2`. -/
theorem rejection_verdict_lacks_face_count :
    (process_frame w3m2 (some w3f)).is_valid = false ∧
    (process_frame w3m2 (some w3f)).face_count = none ∧
    ¬(process_frame w3m2 (some w3f)).face_count = some 2 := by
  have h : process_frame w3m2 (some w3f) = invalidVerdict
      "Multiple faces detected. Please ensure only your face is in the frame" := by
    norm_num [process_frame, detect_faces, w3m2, w3f, List.filter]
  rw [h]
  exact ⟨rfl, rfl, by simp [invalidVerdict]⟩

/-- C7 amended: only the accepting verdict of `process_frame` carries a
`face_count` (then necessarily 1, `utils.py` lines 124-128); every
rejection verdict omits `face_count` and carries an error reason
instead (lines 102-122). -/
theorem face_count_only_on_acceptance (mtcnn : Frame → List (Box × ℚ))
    (frame : Option Frame) :
    ((process_frame mtcnn frame).is_valid = true →
      (process_frame mtcnn frame).face_count = some 1 ∧
        (process_frame mtcnn frame).error = none) ∧
    ((process_frame mtcnn frame).is_valid = false →
      (process_frame mtcnn frame).face_count = none ∧
        (process_frame mtcnn frame).error ≠ none) := by
  cases frame with
  | none => simp [process_frame, invalidVerdict]
  | some f =>
    by_cases hsz : f.size = 0
    · simp [process_frame, hsz, invalidVerdict]
    · rcases hdet : detect_faces mtcnn (some f) with _ | ⟨b, rest⟩
      · simp [process_frame, hsz, hdet, invalidVerdict]
      · rcases rest with _ | ⟨q, t⟩
        · by_cases hh : b.y2 - b.y1 < (f.height : ℚ) * (2 / 10)
          · simp [process_frame, hsz, hdet, maxByArea, hh, invalidVerdict]
          · by_cases hw : b.x2 - b.x1 < (f.width : ℚ) * (2 / 10)
            · simp [process_frame, hsz, hdet, maxByArea, hh, hw,
                invalidVerdict]
            · simp [process_frame, hsz, hdet, maxByArea, hh, hw,
                invalidVerdict]
        · have h2 : 1 < (b :: q :: t).length := by
            simp only [List.length_cons]
            omega
          simp [process_frame, hsz, hdet, h2, invalidVerdict]

/-- Witness for the amended C7: the two-face frame rejects with no
face_count; a well-framed single face accepts with face_count 1. -/
theorem face_count_only_on_acceptance_witness :
    (process_frame w3m2 (some w3f)).is_valid = false ∧
    (process_frame w3m2 (some w3f)).face_count = none ∧
    (process_frame w3m2 (some w3f)).error ≠ none ∧
    (process_frame w3m1g (some w3f)).is_valid = true ∧
    (process_frame w3m1g (some w3f)).face_count = some 1 := by
  have hinv : (process_frame w3m2 (some w3f)).is_valid = false := by
    norm_num [process_frame, detect_faces, w3m2, w3f, List.filter,
      invalidVerdict]
  have hval : (process_frame w3m1g (some w3f)).is_valid = true := by
    norm_num [process_frame, detect_faces, w3m1g, w3f, w3big,
      List.filter, maxByArea]
  have h2 := (face_count_only_on_acceptance w3m2 (some w3f)).2 hinv
  have h1 := (face_count_only_on_acceptance w3m1g (some w3f)).1 hval
  exact ⟨hinv, h2.1, h2.2, hval, h1.1⟩

/-! ## C5: an explicit face_location skips frame validation -/

def w5Rec : FaceRecognizer :=
  ⟨fun _ => [(w3big, 97 / 100), (w3small, 96 / 100)],
   fun _ _ => some [1], [(7, [1])]⟩

/-- C5: when `face_location` is supplied explicitly, `process_frame` is
never consulted (`utils.py` lines 139 and 178): the results of
`identify_user` and `verify_user_face` are independent of the detector,
and both can return a positive result on a frame in which the detector
sees multiple faces (which `process_frame` would reject). -/
theorem explicit_location_skips_validation :
    (∀ (m1 m2 : Frame → List (Box × ℚ)) (e : Frame → Box → Option Emb)
        (kf : List (ℕ × Emb)) (t : ℚ) (frame : Option Frame) (b : Box),
      identify_user ⟨m1, e, kf⟩ t frame (some b) =
        identify_user ⟨m2, e, kf⟩ t frame (some b)) ∧
    (∀ (m1 m2 : Frame → List (Box × ℚ)) (e : Frame → Box → Option Emb)
        (kf : List (ℕ × Emb)) (t : ℚ) (uid : ℕ) (frame : Option Frame)
        (b : Box),
      verify_user_face ⟨m1, e, kf⟩ t uid frame (some b) =
        verify_user_face ⟨m2, e, kf⟩ t uid frame (some b)) ∧
    (∃ (r : FaceRecognizer) (t : ℚ) (f : Frame) (uid : ℕ) (b : Box),
      1 < (detect_faces r.mtcnn (some f)).length ∧
      process_frame r.mtcnn (some f) = invalidVerdict
        "Multiple faces detected. Please ensure only your face is in the frame" ∧
      identify_user r t (some f) (some b) = some uid ∧
      verify_user_face r t uid (some f) (some b) = true) := by
  refine ⟨fun m1 m2 e kf t frame b => rfl,
    fun m1 m2 e kf t uid frame b => rfl,
    ⟨w5Rec, 8 / 10, w3f, 7, w3big, ?_, ?_, ?_, ?_⟩⟩
  · norm_num [detect_faces, w5Rec, w3f, List.filter]
  · norm_num [process_frame, detect_faces, w5Rec, w3f, List.filter]
  · norm_num [identify_user, pipeline_embedding, resolve_location,
      get_face_embedding, bestMatchFold, bestStep, similarity, w5Rec, w3f]
  · norm_num [verify_user_face, pipeline_embedding, resolve_location,
      get_face_embedding, similarity, w5Rec, w3f]

/-! ## C4: one corrupt record aborts the whole rebuild -/

theorem loadGo_none_of_corrupt (loads : Blob → Option Emb)
    (profiles : List FaceProfile)
    (h : ∃ p ∈ profiles, ∃ b, p.face_encoding = some b ∧ loads b = none) :
    ∀ acc, loadGo loads profiles acc = none := by
  induction profiles with
  | nil =>
    rcases h with ⟨p, hp, _⟩
    cases hp
  | cons p rest ih =>
    intro acc
    rcases h with ⟨q, hq, b, hb, hl⟩
    rcases List.mem_cons.mp hq with rfl | hq2
    · simp only [loadGo, hb, hl]
    · cases hpe : p.face_encoding with
      | none =>
        simp only [loadGo, hpe]
        exact ih ⟨_, hq2, b, hb, hl⟩ acc
      | some blob =>
        cases hlb : loads blob with
        | none => simp only [loadGo, hpe, hlb]
        | some emb =>
          simp only [loadGo, hpe, hlb]
          exact ih ⟨_, hq2, b, hb, hl⟩ _

def w4loads : Blob → Option Emb := fun b => if b = 0 then none else some [(b : ℚ)]

def w4profiles : List FaceProfile :=
  [⟨1, some 5, true⟩, ⟨2, some 0, true⟩, ⟨3, some 7, true⟩]

/-- Counterexample to C4: records 1 and 3 deserialize fine (as the last
conjunct shows by rebuilding without record 2), record 2 is corrupt —
yet the rebuilt index is empty: the valid records are NOT retained,
because the `try` of `load_known_faces` wraps the whole loop
(`utils.py` lines 30-41) and its handler resets `known_faces` to the
empty dict. -/
theorem corrupt_record_wipes_valid_records :
    load_known_faces w4loads w4profiles = [] ∧
    List.lookup 1 (load_known_faces w4loads w4profiles) = none ∧
    List.lookup 3 (load_known_faces w4loads w4profiles) = none ∧
    load_known_faces w4loads [⟨1, some 5, true⟩, ⟨3, some 7, true⟩] =
      [(1, [(5 : ℚ)]), (3, [7])] := by
  refine ⟨?_, ?_, ?_, ?_⟩ <;>
    simp [load_known_faces, loadGo, w4loads, w4profiles, dictInsert]

/-- C4 amended: a deserialization failure for any single enrollment
record aborts the entire rebuild — the top-level exception handler
replaces the index by the empty dict, dropping every valid record too. -/
theorem corrupt_record_aborts_rebuild (loads : Blob → Option Emb)
    (profiles : List FaceProfile)
    (h : ∃ p ∈ profiles, ∃ b, p.face_encoding = some b ∧ loads b = none) :
    load_known_faces loads profiles = [] := by
  unfold load_known_faces
  rw [loadGo_none_of_corrupt loads profiles h []]
  rfl

/-- Witness for the amended C4 at the concrete corrupt record set. -/
theorem corrupt_record_aborts_rebuild_witness :
    (∃ p ∈ w4profiles, ∃ b, p.face_encoding = some b ∧ w4loads b = none) ∧
    load_known_faces w4loads w4profiles = [] := by
  have h : ∃ p ∈ w4profiles, ∃ b, p.face_encoding = some b ∧
      w4loads b = none := by
    refine ⟨⟨2, some 0, true⟩, ?_, 0, rfl, ?_⟩
    · simp [w4profiles]
    · simp [w4loads]
  exact ⟨h, corrupt_record_aborts_rebuild w4loads w4profiles h⟩

/-! ## C6: the rebuild ignores the is_active flag -/

theorem lookup_cons_self {k : ℕ} {v : Emb} {rest : List (ℕ × Emb)} :
    List.lookup k ((k, v) :: rest) = some v := by
  simp [List.lookup]

theorem lookup_cons_ne {uid k : ℕ} {v : Emb} {rest : List (ℕ × Emb)}
    (h : uid ≠ k) :
    List.lookup uid ((k, v) :: rest) = List.lookup uid rest := by
  simp [List.lookup, beq_eq_false_iff_ne.mpr h]

theorem lookup_dictInsert (uid k : ℕ) (v : Emb) (d : List (ℕ × Emb)) :
    List.lookup uid (dictInsert k v d) =
      if uid = k then some v else List.lookup uid d := by
  induction d with
  | nil =>
    by_cases h : uid = k
    · subst h
      simp [dictInsert, lookup_cons_self]
    · simp [dictInsert, h, lookup_cons_ne h]
  | cons p rest ih =>
    obtain ⟨a, w⟩ := p
    simp only [dictInsert]
    by_cases hak : a = k
    · rw [if_pos hak]
      by_cases h : uid = k
      · rw [if_pos h]
        subst h
        exact lookup_cons_self
      · rw [lookup_cons_ne h, if_neg h,
          lookup_cons_ne (fun hh => h (hh.trans hak))]
    · rw [if_neg hak]
      by_cases h1 : uid = a
      · subst h1
        rw [lookup_cons_self, if_neg hak, lookup_cons_self]
      · rw [lookup_cons_ne h1, ih, lookup_cons_ne h1]

theorem loadGo_lookup (loads : Blob → Option Emb) (uid : ℕ) :
    ∀ (profiles : List FaceProfile) (acc : List (ℕ × Emb)),
      (∀ p ∈ profiles, ∀ b, p.face_encoding = some b → loads b ≠ none) →
      ∃ d, loadGo loads profiles acc = some d ∧
        (List.lookup uid d ≠ none ↔
          (∃ p ∈ profiles, p.user_id = uid ∧ p.face_encoding ≠ none) ∨
            List.lookup uid acc ≠ none) := by
  intro profiles
  induction profiles with
  | nil =>
    intro acc hok
    exact ⟨acc, rfl, by simp⟩
  | cons p rest ih =>
    intro acc hok
    cases hpe : p.face_encoding with
    | none =>
      obtain ⟨d, hd, hiff⟩ := ih acc
        (fun q hq => hok q (List.mem_cons_of_mem p hq))
      refine ⟨d, by simp only [loadGo, hpe]; exact hd, ?_⟩
      rw [hiff]
      constructor
      · rintro (⟨q, hq, h1, h2⟩ | h)
        · exact Or.inl ⟨q, List.mem_cons_of_mem p hq, h1, h2⟩
        · exact Or.inr h
      · rintro (⟨q, hq, h1, h2⟩ | h)
        · rcases List.mem_cons.mp hq with rfl | hq2
          · exact absurd hpe h2
          · exact Or.inl ⟨q, hq2, h1, h2⟩
        · exact Or.inr h
    | some blob =>
      have hl : loads blob ≠ none := hok p (List.mem_cons_self p rest) blob hpe
      cases hlb : loads blob with
      | none => exact absurd hlb hl
      | some emb =>
        obtain ⟨d, hd, hiff⟩ := ih (dictInsert p.user_id emb acc)
          (fun q hq => hok q (List.mem_cons_of_mem p hq))
        refine ⟨d, by simp only [loadGo, hpe, hlb]; exact hd, ?_⟩
        rw [hiff, lookup_dictInsert]
        by_cases hup : uid = p.user_id
        · constructor
          · intro _
            exact Or.inl ⟨p, List.mem_cons_self p rest, hup.symm,
              by simp [hpe]⟩
          · intro _
            right
            simp [hup]
        · rw [if_neg hup]
          constructor
          · rintro (⟨q, hq, h1, h2⟩ | h)
            · exact Or.inl ⟨q, List.mem_cons_of_mem p hq, h1, h2⟩
            · exact Or.inr h
          · rintro (⟨q, hq, h1, h2⟩ | h)
            · rcases List.mem_cons.mp hq with rfl | hq2
              · exact absurd h1.symm hup
              · exact Or.inl ⟨q, hq2, h1, h2⟩
            · exact Or.inr h

def w6profiles : List FaceProfile := [⟨4, some 9, false⟩]

/-- Counterexample to C6: a record with `is_active = false` and a valid
stored encoding IS loaded into the rebuilt index — `load_known_faces`
iterates `FaceProfile.objects.all()` with no active filter
(`utils.py` line 33). -/
theorem inactive_record_is_loaded :
    (∀ p ∈ w6profiles, p.is_active = false) ∧
    List.lookup 4 (load_known_faces w4loads w6profiles) = some [(9 : ℚ)] := by
  constructor
  · intro p hp
    simp [w6profiles] at hp
    simp [hp]
  · simp [load_known_faces, loadGo, w4loads, w6profiles, dictInsert,
      List.lookup]

/-- C6 amended: for a record set whose stored encodings all deserialize,
the rebuilt index maps exactly those user identities whose profile has a
stored embedding — the `is_active` flag is ignored, so inactive records
are included too. -/
theorem rebuild_ignores_active_flag (loads : Blob → Option Emb)
    (profiles : List FaceProfile) (uid : ℕ)
    (hok : ∀ p ∈ profiles, ∀ b, p.face_encoding = some b → loads b ≠ none) :
    (List.lookup uid (load_known_faces loads profiles) ≠ none ↔
      ∃ p ∈ profiles, p.user_id = uid ∧ p.face_encoding ≠ none) := by
  obtain ⟨d, hd, hiff⟩ := loadGo_lookup loads uid profiles [] hok
  unfold load_known_faces
  rw [hd]
  simpa using hiff

/-- Witness for the amended C6: the inactive record with identity 4
is exactly what the rebuilt index contains. -/
theorem rebuild_ignores_active_flag_witness :
    (∀ p ∈ w6profiles, ∀ b, p.face_encoding = some b → w4loads b ≠ none) ∧
    (List.lookup 4 (load_known_faces w4loads w6profiles) ≠ none ↔
      ∃ p ∈ w6profiles, p.user_id = 4 ∧ p.face_encoding ≠ none) ∧
    List.lookup 4 (load_known_faces w4loads w6profiles) ≠ none := by
  have hok : ∀ p ∈ w6profiles, ∀ b, p.face_encoding = some b →
      w4loads b ≠ none := by
    intro p hp b hb
    simp [w6profiles] at hp
    subst hp
    simp at hb
    subst hb
    simp [w4loads]
  refine ⟨hok, rebuild_ignores_active_flag w4loads w6profiles 4 hok, ?_⟩
  simp [load_known_faces, loadGo, w4loads, w6profiles, dictInsert,
    List.lookup]

end SmatFace
